import Mathlib

/-!
Verification development for the DSS-VAE repository.

We give a shallow embedding of the two source files
`src/syntaxVAE/md.py` and `src/submodules/baseRNN.py` over the rationals.
Tensors are modelled with dimension-indexed types: a batch of feature
vectors of shape `(B, n)` is `Fin B → Fin n → ℚ`, a batch of matrices of
shape `(B, m, n)` is `Fin B → Matrix (Fin m) (Fin n) ℚ`.

Dropout layers are modelled with an explicit `training` flag and an
explicit multiplicative mask (the realized random mask of one call):
in evaluation mode (`training = false`) a dropout layer is the identity,
exactly as in the source framework; in training mode it multiplies
pointwise by the mask.
-/

namespace DSSVAE

/-- `nn.Linear(inF, outF)` with bias: `y = W x + b`, weight of shape
`(outF, inF)`. -/
structure Linear (inF outF : ℕ) where
  weight : Matrix (Fin outF) (Fin inF) ℚ
  bias : Fin outF → ℚ

/-- Application of a linear layer to one feature vector. -/
def Linear.forward {m n : ℕ} (l : Linear m n) (x : Fin m → ℚ) : Fin n → ℚ :=
  fun i => l.weight.mulVec x i + l.bias i

/-- `nn.ReLU()` applied pointwise. -/
def relu {n : ℕ} (x : Fin n → ℚ) : Fin n → ℚ :=
  fun i => max (x i) 0

/-- `nn.Dropout(p)` for one call: in training mode it multiplies by the
realized mask, in evaluation mode it is the identity. -/
def dropout {n : ℕ} (training : Bool) (mask : Fin n → ℚ) (x : Fin n → ℚ) :
    Fin n → ℚ :=
  if training then fun i => mask i * x i else x

/-- Parameters of `MatrixMapper(input_dim, hidden_dim, k_dim, v_dim)`:
the two linear layers of the key branch `k_mapper` and the two linear
layers of the value branch `v_mapper`. -/
structure MatrixMapper (input_dim hidden_dim k_dim v_dim : ℕ) where
  k_lin1 : Linear input_dim hidden_dim
  k_lin2 : Linear hidden_dim k_dim
  v_lin1 : Linear input_dim hidden_dim
  v_lin2 : Linear hidden_dim v_dim

/-- The realized dropout masks of one `MatrixMapper.forward` call
(one mask per `nn.Dropout` occurrence in the two branches). -/
structure MapperMasks (input_dim hidden_dim : ℕ) where
  k1 : Fin input_dim → ℚ
  k2 : Fin hidden_dim → ℚ
  v1 : Fin input_dim → ℚ
  v2 : Fin hidden_dim → ℚ

/-- The key branch `self.k_mapper`:
`Dropout → Linear(input_dim, hidden_dim) → ReLU → Dropout → Linear(hidden_dim, k_dim)`. -/
def MatrixMapper.k_mapper {i h k v : ℕ} (mm : MatrixMapper i h k v)
    (tr : Bool) (mk : MapperMasks i h) (x : Fin i → ℚ) : Fin k → ℚ :=
  mm.k_lin2.forward (dropout tr mk.k2 (relu (mm.k_lin1.forward (dropout tr mk.k1 x))))

/-- The value branch `self.v_mapper`:
`Dropout → Linear(input_dim, hidden_dim) → ReLU → Dropout → Linear(hidden_dim, v_dim)`. -/
def MatrixMapper.v_mapper {i h k v : ℕ} (mm : MatrixMapper i h k v)
    (tr : Bool) (mk : MapperMasks i h) (x : Fin i → ℚ) : Fin v → ℚ :=
  mm.v_lin2.forward (dropout tr mk.v2 (relu (mm.v_lin1.forward (dropout tr mk.v1 x))))

/-- `view(batch_size, -1, 1)` on one batch element: a length-`k` vector
as a `k × 1` column matrix. -/
def colMat {k : ℕ} (x : Fin k → ℚ) : Matrix (Fin k) (Fin 1) ℚ :=
  Matrix.of fun i _ => x i

/-- `view(batch_size, 1, -1)` on one batch element: a length-`v` vector
as a `1 × v` row matrix. -/
def rowMat {v : ℕ} (x : Fin v → ℚ) : Matrix (Fin 1) (Fin v) ℚ :=
  Matrix.of fun _ j => x j

/-- `MatrixMapper.forward` on one batch element: run both branches,
reshape to column and row, `torch.bmm`. -/
def MatrixMapper.forward {i h k v : ℕ} (mm : MatrixMapper i h k v)
    (tr : Bool) (mk : MapperMasks i h) (inputs : Fin i → ℚ) :
    Matrix (Fin k) (Fin v) ℚ :=
  let k_vec := mm.k_mapper tr mk inputs
  let v_vec := mm.v_mapper tr mk inputs
  let post_k := colMat k_vec
  let post_v := rowMat v_vec
  post_k * post_v

/-- Batched `MatrixMapper.forward`: all the tensor operations of the
source (`Linear`, `ReLU`, `Dropout`, `view`, `torch.bmm`) act on each
batch element separately, with its own realized dropout masks. -/
def MatrixMapper.forwardB {B i h k v : ℕ} (mm : MatrixMapper i h k v)
    (tr : Bool) (mk : Fin B → MapperMasks i h)
    (inputs : Fin B → Fin i → ℚ) : Fin B → Matrix (Fin k) (Fin v) ℚ :=
  fun b => mm.forward tr (mk b) (inputs b)

/-- Parameters of
`MatrixDecoder(input_dim, hidden_dim, max_len, vocab_size, dropm, dropo)`:
the control mapper (a `MatrixMapper` producing `max_len × max_len`),
the semantic mapper (producing `max_len × hidden_dim`) and the two
linear layers of `word_predictor`. -/
structure MatrixDecoder (input_dim hidden_dim max_len vocab_size : ℕ) where
  control_matrix_mapper : MatrixMapper input_dim hidden_dim max_len max_len
  semantic_matrix_mapper : MatrixMapper input_dim hidden_dim max_len hidden_dim
  wp_lin1 : Linear hidden_dim hidden_dim
  wp_lin2 : Linear hidden_dim vocab_size

/-- The realized dropout masks of one `MatrixDecoder.generate` call:
masks for each mapper and, for the two dropouts of `word_predictor`,
one mask per output position (dropout is elementwise on the
`(max_len, hidden_dim)` intermediate tensor). -/
structure DecoderMasks (input_dim hidden_dim max_len : ℕ) where
  control : MapperMasks input_dim hidden_dim
  semantic : MapperMasks input_dim hidden_dim
  o1 : Fin max_len → Fin hidden_dim → ℚ
  o2 : Fin max_len → Fin hidden_dim → ℚ

/-- `self.word_predictor`:
`Dropout → Linear(hidden_dim, hidden_dim) → Dropout → Linear(hidden_dim, vocab_size)`,
applied to the last dimension of a `(max_len, hidden_dim)` tensor,
i.e. to each row independently with shared weights. -/
def MatrixDecoder.word_predictor {i h L V : ℕ} (md : MatrixDecoder i h L V)
    (tr : Bool) (o1 o2 : Fin L → Fin h → ℚ) (m : Matrix (Fin L) (Fin h) ℚ) :
    Matrix (Fin L) (Fin V) ℚ :=
  Matrix.of fun p => md.wp_lin2.forward (dropout tr (o2 p) (md.wp_lin1.forward (dropout tr (o1 p) (m p))))

/-- `MatrixDecoder.generate(con_inputs, sem_inputs)` on one batch
element: map to the control matrix and the semantic matrix,
`torch.bmm`, then `word_predictor`. -/
def MatrixDecoder.generate {i h L V : ℕ} (md : MatrixDecoder i h L V)
    (tr : Bool) (mk : DecoderMasks i h L)
    (con_inputs sem_inputs : Fin i → ℚ) : Matrix (Fin L) (Fin V) ℚ :=
  let con_mat := md.control_matrix_mapper.forward tr mk.control con_inputs
  let sem_mat := md.semantic_matrix_mapper.forward tr mk.semantic sem_inputs
  let dec_init := con_mat * sem_mat
  md.word_predictor tr mk.o1 mk.o2 dec_init

/-- `MatrixDecoder.forward(inputs)`: `generate(inputs, inputs)`. -/
def MatrixDecoder.forward {i h L V : ℕ} (md : MatrixDecoder i h L V)
    (tr : Bool) (mk : DecoderMasks i h L) (inputs : Fin i → ℚ) :
    Matrix (Fin L) (Fin V) ℚ :=
  md.generate tr mk inputs inputs

/-- Batched `MatrixDecoder.generate`: each batch element is processed
by the same weights with its own realized dropout masks. -/
def MatrixDecoder.generateB {B i h L V : ℕ} (md : MatrixDecoder i h L V)
    (tr : Bool) (mk : Fin B → DecoderMasks i h L)
    (con_inputs sem_inputs : Fin B → Fin i → ℚ) :
    Fin B → Matrix (Fin L) (Fin V) ℚ :=
  fun b => md.generate tr (mk b) (con_inputs b) (sem_inputs b)

/-- Batched `MatrixDecoder.forward`. -/
def MatrixDecoder.forwardB {B i h L V : ℕ} (md : MatrixDecoder i h L V)
    (tr : Bool) (mk : Fin B → DecoderMasks i h L)
    (inputs : Fin B → Fin i → ℚ) : Fin B → Matrix (Fin L) (Fin V) ℚ :=
  fun b => md.forward tr (mk b) (inputs b)

/-- `VarMD(input_dim, latent_dim, hidden_dim, max_len, vocab_size, dropm, dropo)`:
its `__init__` calls the `MatrixDecoder` initializer with every argument
except `latent_dim` and adds nothing, so its state is exactly a
`MatrixDecoder`; `latent_dim` is carried only as an index. -/
structure VarMD (input_dim latent_dim hidden_dim max_len vocab_size : ℕ) where
  base : MatrixDecoder input_dim hidden_dim max_len vocab_size

/-- `VarMD.generate` is inherited unchanged from `MatrixDecoder`. -/
def VarMD.generate {i ld h L V : ℕ} (vmd : VarMD i ld h L V)
    (tr : Bool) (mk : DecoderMasks i h L)
    (con_inputs sem_inputs : Fin i → ℚ) : Matrix (Fin L) (Fin V) ℚ :=
  vmd.base.generate tr mk con_inputs sem_inputs

/-- `VarMD.forward` is inherited unchanged from `MatrixDecoder`. -/
def VarMD.forward {i ld h L V : ℕ} (vmd : VarMD i ld h L V)
    (tr : Bool) (mk : DecoderMasks i h L) (inputs : Fin i → ℚ) :
    Matrix (Fin L) (Fin V) ℚ :=
  vmd.base.forward tr mk inputs

/-! ### `find_val` (src/syntaxVAE/md.py, lines 27-37)

`find_val(inputs, val, axis=1)` computes `val_match = (inputs == val)`
and returns `((val_match.cumsum(axis) == 1) & val_match).max(axis)`.
We model the integer tensor `inputs` of shape `(batch, max_len)` as a
list of rows of integers; comparison produces bytes (`0`/`1` as ℕ,
matching a ByteTensor), and `torch.max` along a dimension returns both
the maximum value and the index of its first occurrence. -/

/-- Inclusive cumulative sum along a row, `torch.cumsum` on one row. -/
def cumsum : List ℕ → List ℕ
  | [] => []
  | x :: xs => x :: (cumsum xs).map (fun c => x + c)

/-- `torch.max` along a dimension, on one row: the pair
(maximum value, index of the first entry attaining it). On an empty
row both components are `0`. -/
def torchMax (l : List ℕ) : ℕ × ℕ :=
  let m := l.foldr max 0
  (m, l.findIdx (fun x => x == m))

/-- One row of `find_val`: bytes of `inputs == val`, cumulative sum,
`(cumsum == 1) & val_match`, then `max` with its first index. -/
def find_val_row (row : List ℤ) (val : ℤ) : ℕ × ℕ :=
  let val_match := row.map (fun x => if x = val then (1 : ℕ) else 0)
  let cum := cumsum val_match
  let marker := List.zipWith (fun c m => if c = 1 ∧ m = 1 then (1 : ℕ) else 0) cum val_match
  torchMax marker

/-- `find_val(inputs, val)` on a batch: the reduction of the marker
tensor along the length axis, returning the per-row found bytes and the
per-row indices. -/
def find_val (inputs : List (List ℤ)) (val : ℤ) : List ℕ × List ℕ :=
  (inputs.map (fun row => (find_val_row row val).1),
   inputs.map (fun row => (find_val_row row val).2))

/-- Bytes of `inputs == val` on one row. -/
def valMatch (row : List ℤ) (val : ℤ) : List ℕ :=
  row.map (fun x => if x = val then (1 : ℕ) else 0)

/-- The marker tensor `(val_match.cumsum(axis) == 1) & val_match` on one
row. -/
def markerOf (row : List ℤ) (val : ℤ) : List ℕ :=
  List.zipWith (fun c m => if c = 1 ∧ m = 1 then (1 : ℕ) else 0)
    (cumsum (valMatch row val)) (valMatch row val)

/-- Specification-side description of the marker row: a `1` exactly at
the first occurrence of `val`, `0` everywhere else. -/
def firstMarker (row : List ℤ) (val : ℤ) : List ℕ :=
  match row with
  | [] => []
  | x :: xs =>
      if x = val then 1 :: List.replicate xs.length 0
      else 0 :: firstMarker xs val

/-! ### Shape observation

To state shape contracts we serialize a dimension-indexed batched
tensor into nested lists and observe the list lengths. -/

/-- Serialize a matrix into its list of rows. -/
def matToLists {m n : ℕ} (M : Matrix (Fin m) (Fin n) ℚ) : List (List ℚ) :=
  List.ofFn fun p => List.ofFn fun q => M p q

/-- Serialize a batched tensor of shape `(B, m, n)` into nested lists. -/
def batchToLists {B m n : ℕ} (t : Fin B → Matrix (Fin m) (Fin n) ℚ) :
    List (List (List ℚ)) :=
  List.ofFn fun b => matToLists (t b)

/-! ### `BaseRNN` (src/submodules/baseRNN.py) -/

/-- The closed set of recurrent cell classes `BaseRNN.__init__` can
select: `nn.LSTM` or `nn.GRU`. -/
inductive RnnCell where
  | lstm : RnnCell
  | gru : RnnCell
deriving DecidableEq

/-- Python's `str.lower()` on the ASCII configuration strings used
here: lowercase every character. -/
def pyLower (s : String) : String :=
  ⟨s.data.map Char.toLower⟩

/-- The state `BaseRNN.__init__` stores on the instance. The embedding
table is determined by `vocab_size` and `input_size`; the dropout
module by `embed_droprate`. -/
structure BaseRNN where
  vocab_size : ℕ
  max_len : ℕ
  input_size : ℕ
  hidden_size : ℕ
  n_layers : ℕ
  embed_droprate : ℚ
  rnn_droprate : ℚ
  rnn_cell : RnnCell

/-- `BaseRNN.__init__`: stores the configuration, overrides
`rnn_droprate` to `0.0` unless `n_layers > 1`, and dispatches on
`rnn_cell.lower()`, raising `ValueError` for any string other than
a case variant of `"lstm"` or `"gru"`. -/
def BaseRNN.make (vocab_size max_len input_size hidden_size : ℕ)
    (embed_droprate rnn_droprate : ℚ) (n_layers : ℕ) (rnn_cell : String) :
    Except String BaseRNN :=
  let rd : ℚ := if n_layers > 1 then rnn_droprate else 0
  if pyLower rnn_cell = "lstm" then
    .ok { vocab_size, max_len, input_size, hidden_size, n_layers,
          embed_droprate, rnn_droprate := rd, rnn_cell := .lstm }
  else if pyLower rnn_cell = "gru" then
    .ok { vocab_size, max_len, input_size, hidden_size, n_layers,
          embed_droprate, rnn_droprate := rd, rnn_cell := .gru }
  else
    .error ("Unsupported RNN Cell: " ++ rnn_cell)

/-! ## Helper lemmas -/

/-- In evaluation mode a dropout layer is the identity. -/
theorem dropout_false {n : ℕ} (mask x : Fin n → ℚ) : dropout false mask x = x :=
  rfl

/-- The `bmm` of a `k × 1` column view and a `1 × v` row view is the
outer product `Matrix.vecMulVec`. -/
theorem colMat_mul_rowMat {k v : ℕ} (a : Fin k → ℚ) (b : Fin v → ℚ) :
    colMat a * rowMat b = Matrix.vecMulVec a b := by
  ext p q
  simp [colMat, rowMat, Matrix.mul_apply, Matrix.vecMulVec_apply]

/-- In evaluation mode `MatrixMapper.forward` does not depend on the
realized dropout masks. -/
theorem mapper_forward_eval_mask_invariant {i h k v : ℕ}
    (mm : MatrixMapper i h k v) (mk mk' : MapperMasks i h) (x : Fin i → ℚ) :
    mm.forward false mk x = mm.forward false mk' x := by
  simp [MatrixMapper.forward, MatrixMapper.k_mapper, MatrixMapper.v_mapper,
    dropout_false]

/-- In evaluation mode `MatrixDecoder.generate` does not depend on the
realized dropout masks. -/
theorem generate_eval_mask_invariant {i h L V : ℕ}
    (md : MatrixDecoder i h L V) (mk mk' : DecoderMasks i h L)
    (con sem : Fin i → ℚ) :
    md.generate false mk con sem = md.generate false mk' con sem := by
  simp [MatrixDecoder.generate, MatrixDecoder.word_predictor,
    MatrixMapper.forward, MatrixMapper.k_mapper, MatrixMapper.v_mapper,
    dropout_false]

/-- The serialized form of a batched `(B, m, n)` tensor has outer
length `B`, every row-list has length `m`, and every entry-list has
length `n`. -/
theorem batchToLists_shape {B m n : ℕ} (t : Fin B → Matrix (Fin m) (Fin n) ℚ) :
    (batchToLists t).length = B ∧
    ∀ r ∈ batchToLists t, r.length = m ∧ ∀ q ∈ r, q.length = n := by
  refine ⟨by simp [batchToLists], ?_⟩
  intro r hr
  simp only [batchToLists, List.mem_ofFn] at hr
  obtain ⟨b, rfl⟩ := hr
  refine ⟨by simp [matToLists], ?_⟩
  intro q hq
  simp only [matToLists, List.mem_ofFn] at hq
  obtain ⟨p, rfl⟩ := hq
  simp

/-! ## Claim theorems -/

/-- C4: for every input `x` (any mode, any realized dropout masks),
`MatrixDecoder.forward x` returns exactly `MatrixDecoder.generate x x`,
using the same vector as both the control and the semantic source; the
same holds for the batched application. -/
theorem forward_eq_generate_self {B i h L V : ℕ} (md : MatrixDecoder i h L V)
    (tr : Bool) (mk : DecoderMasks i h L) (x : Fin i → ℚ)
    (mkB : Fin B → DecoderMasks i h L) (xs : Fin B → Fin i → ℚ) :
    md.forward tr mk x = md.generate tr mk x x ∧
    md.forwardB tr mkB xs = md.generateB tr mkB xs xs :=
  ⟨rfl, rfl⟩

/-- C9: `VarMD` adds no behavior beyond `MatrixDecoder`: its `generate`
and `forward` coincide with those of the underlying `MatrixDecoder`
built from the same parameters excluding `latent_dim`, and the
`latent_dim` argument has no effect on any computation. -/
theorem varMD_adds_no_behavior {i ld h L V : ℕ} (vmd : VarMD i ld h L V)
    (tr : Bool) (mk : DecoderMasks i h L) (con sem x : Fin i → ℚ) :
    vmd.generate tr mk con sem = vmd.base.generate tr mk con sem ∧
    vmd.forward tr mk x = vmd.base.forward tr mk x ∧
    (∀ (ld1 ld2 : ℕ) (md : MatrixDecoder i h L V),
      (@VarMD.mk i ld1 h L V md).generate tr mk con sem =
        (@VarMD.mk i ld2 h L V md).generate tr mk con sem) ∧
    (∀ (ld1 ld2 : ℕ) (md : MatrixDecoder i h L V),
      (@VarMD.mk i ld1 h L V md).forward tr mk x =
        (@VarMD.mk i ld2 h L V md).forward tr mk x) :=
  ⟨rfl, rfl, fun _ _ _ => rfl, fun _ _ _ => rfl⟩

/-- C6: with dropout disabled (evaluation mode) and fixed weights,
`MatrixMapper.forward` and `MatrixDecoder.generate` are deterministic:
the realized random dropout state has no influence, so any two calls on
identical inputs produce identical outputs (also batched). -/
theorem eval_mode_deterministic {B i h k v L V : ℕ}
    (mm : MatrixMapper i h k v) (md : MatrixDecoder i h L V)
    (mk1 mk2 : MapperMasks i h) (dm1 dm2 : DecoderMasks i h L)
    (x con sem : Fin i → ℚ)
    (mkB1 mkB2 : Fin B → DecoderMasks i h L)
    (conB semB : Fin B → Fin i → ℚ) :
    mm.forward false mk1 x = mm.forward false mk2 x ∧
    md.generate false dm1 con sem = md.generate false dm2 con sem ∧
    md.generateB false mkB1 conB semB = md.generateB false mkB2 conB semB := by
  refine ⟨mapper_forward_eval_mask_invariant mm mk1 mk2 x,
    generate_eval_mask_invariant md dm1 dm2 con sem, ?_⟩
  funext b
  exact generate_eval_mask_invariant md (mkB1 b) (mkB2 b) (conB b) (semB b)

/-- C2: `MatrixMapper.forward` on a batch applies the two branches
(dropout, linear `input_dim → hidden_dim`, rectified-linear, dropout,
linear to `k_dim` resp. `v_dim`), reshapes the key vector to a
`k_dim × 1` column and the value vector to a `1 × v_dim` row, and
returns their batched outer product, of shape `(batch, k_dim, v_dim)`. -/
theorem matrixMapper_outer_product {B i h k v : ℕ} (mm : MatrixMapper i h k v)
    (tr : Bool) (mk : Fin B → MapperMasks i h) (x : Fin B → Fin i → ℚ) :
    (∀ b, mm.forwardB tr mk x b =
      colMat (mm.k_lin2.forward (dropout tr (mk b).k2
          (relu (mm.k_lin1.forward (dropout tr (mk b).k1 (x b)))))) *
        rowMat (mm.v_lin2.forward (dropout tr (mk b).v2
          (relu (mm.v_lin1.forward (dropout tr (mk b).v1 (x b))))))) ∧
    (∀ b, mm.forwardB tr mk x b =
      Matrix.vecMulVec (mm.k_mapper tr (mk b) (x b)) (mm.v_mapper tr (mk b) (x b))) ∧
    (∀ b p q, mm.forwardB tr mk x b p q =
      mm.k_mapper tr (mk b) (x b) p * mm.v_mapper tr (mk b) (x b) q) ∧
    ((batchToLists (mm.forwardB tr mk x)).length = B ∧
      ∀ r ∈ batchToLists (mm.forwardB tr mk x),
        r.length = k ∧ ∀ q ∈ r, q.length = v) := by
  refine ⟨fun b => rfl, fun b => colMat_mul_rowMat _ _, fun b p q => ?_, ?_, ?_⟩
  · have hb := colMat_mul_rowMat (mm.k_mapper tr (mk b) (x b)) (mm.v_mapper tr (mk b) (x b))
    calc mm.forwardB tr mk x b p q
        = (colMat (mm.k_mapper tr (mk b) (x b)) * rowMat (mm.v_mapper tr (mk b) (x b))) p q := rfl
      _ = Matrix.vecMulVec (mm.k_mapper tr (mk b) (x b)) (mm.v_mapper tr (mk b) (x b)) p q := by
          rw [hb]
      _ = mm.k_mapper tr (mk b) (x b) p * mm.v_mapper tr (mk b) (x b) q := rfl
  · simp [batchToLists]
  · intro r hr
    simp only [batchToLists, List.mem_ofFn] at hr
    obtain ⟨b, rfl⟩ := hr
    constructor
    · simp [matToLists]
    · intro q hq
      simp only [matToLists, List.mem_ofFn] at hq
      obtain ⟨p, rfl⟩ := hq
      simp

/-- C3: with dropout disabled, every per-batch-element output matrix of
`MatrixMapper` has rank at most one: it is the outer product of a
single key vector and a single value vector. -/
theorem matrixMapper_rank_le_one {B i h k v : ℕ} (mm : MatrixMapper i h k v)
    (mk : Fin B → MapperMasks i h) (x : Fin B → Fin i → ℚ) (b : Fin B) :
    (mm.forwardB false mk x b).rank ≤ 1 ∧
    ∃ (kv : Fin k → ℚ) (vv : Fin v → ℚ),
      mm.forwardB false mk x b = Matrix.vecMulVec kv vv := by
  constructor
  · calc (mm.forwardB false mk x b).rank
        = (colMat (mm.k_mapper false (mk b) (x b)) *
            rowMat (mm.v_mapper false (mk b) (x b))).rank := rfl
      _ ≤ (colMat (mm.k_mapper false (mk b) (x b))).rank :=
          Matrix.rank_mul_le_left _ _
      _ ≤ Fintype.card (Fin 1) := Matrix.rank_le_card_width _
      _ = 1 := Fintype.card_fin 1
  · exact ⟨mm.k_mapper false (mk b) (x b), mm.v_mapper false (mk b) (x b),
      colMat_mul_rowMat _ _⟩

/-- C1: `MatrixDecoder.generate` computes the control matrix via
`control_matrix_mapper`, the semantic matrix via
`semantic_matrix_mapper`, takes their batched matrix product to form a
`(batch, max_len, hidden_dim)` intermediate, applies `word_predictor`
to each row, and returns logits of shape `(batch, max_len, vocab_size)`;
in particular with `max_len = 10`, `hidden_dim = 16`, `vocab_size = 50`
and batch size `4` the result has shape `(4, 10, 50)`. -/
theorem matrixDecoder_generate_pipeline {B i h L V : ℕ}
    (md : MatrixDecoder i h L V) (tr : Bool) (mk : Fin B → DecoderMasks i h L)
    (con sem : Fin B → Fin i → ℚ) :
    (∀ b, md.generateB tr mk con sem b =
      md.word_predictor tr (mk b).o1 (mk b).o2
        (md.control_matrix_mapper.forward tr (mk b).control (con b) *
          md.semantic_matrix_mapper.forward tr (mk b).semantic (sem b))) ∧
    ((batchToLists (md.generateB tr mk con sem)).length = B ∧
      ∀ r ∈ batchToLists (md.generateB tr mk con sem),
        r.length = L ∧ ∀ q ∈ r, q.length = V) ∧
    (∀ (md10 : MatrixDecoder i 16 10 50) (mk10 : Fin 4 → DecoderMasks i 16 10)
        (c10 s10 : Fin 4 → Fin i → ℚ),
      (batchToLists (md10.generateB tr mk10 c10 s10)).length = 4 ∧
        ∀ r ∈ batchToLists (md10.generateB tr mk10 c10 s10),
          r.length = 10 ∧ ∀ q ∈ r, q.length = 50) :=
  ⟨fun _ => rfl, batchToLists_shape _,
    fun md10 mk10 c10 s10 => batchToLists_shape (md10.generateB tr mk10 c10 s10)⟩

/-- C7: batch independence of `MatrixDecoder` with dropout disabled:
decoding the concatenation of two batches yields exactly the
concatenation of the separately decoded batches, and each batch
element's output is computed from that element alone. -/
theorem matrixDecoder_batch_independence {B1 B2 i h L V : ℕ}
    (md : MatrixDecoder i h L V)
    (mk : Fin (B1 + B2) → DecoderMasks i h L)
    (mk1 : Fin B1 → DecoderMasks i h L) (mk2 : Fin B2 → DecoderMasks i h L)
    (c1 s1 : Fin B1 → Fin i → ℚ) (c2 s2 : Fin B2 → Fin i → ℚ) :
    md.generateB false mk (Fin.append c1 c2) (Fin.append s1 s2) =
      Fin.append (md.generateB false mk1 c1 s1) (md.generateB false mk2 c2 s2) ∧
    (∀ b, md.generateB false mk1 c1 s1 b = md.generate false (mk1 b) (c1 b) (s1 b)) := by
  refine ⟨funext fun b => ?_, fun b => rfl⟩
  refine Fin.addCases (fun p => ?_) (fun p => ?_) b
  · simp only [MatrixDecoder.generateB, Fin.append_left]
    exact generate_eval_mask_invariant md _ _ _ _
  · simp only [MatrixDecoder.generateB, Fin.append_right]
    exact generate_eval_mask_invariant md _ _ _ _

/-- C8: constructing `BaseRNN` succeeds exactly when the `rnn_cell`
string case-insensitively equals `"lstm"` or `"gru"` (so `"lstm"` and
`"GRU"` succeed), and for every other string — e.g. `"transformer"` —
construction raises the invalid-configuration `ValueError`. -/
theorem baseRNN_cell_validation (vs ml ins hs : ℕ) (ed rd : ℚ) (nl : ℕ) :
    (∀ cell : String,
      (BaseRNN.make vs ml ins hs ed rd nl cell).isOk = true ↔
        (pyLower cell = "lstm" ∨ pyLower cell = "gru")) ∧
    (BaseRNN.make vs ml ins hs ed rd nl "lstm").isOk = true ∧
    (BaseRNN.make vs ml ins hs ed rd nl "GRU").isOk = true ∧
    BaseRNN.make vs ml ins hs ed rd nl "transformer" =
      .error "Unsupported RNN Cell: transformer" := by
  have key : ∀ cell : String,
      (BaseRNN.make vs ml ins hs ed rd nl cell).isOk = true ↔
        (pyLower cell = "lstm" ∨ pyLower cell = "gru") := by
    intro cell
    by_cases h1 : pyLower cell = "lstm"
    · simp [BaseRNN.make, h1, Except.isOk, Except.toBool]
    · by_cases h2 : pyLower cell = "gru"
      · simp [BaseRNN.make, h1, h2, Except.isOk, Except.toBool]
      · simp [BaseRNN.make, h1, h2, Except.isOk, Except.toBool]
  refine ⟨key, ?_, ?_, ?_⟩
  · exact (key "lstm").mpr (Or.inl (by decide))
  · exact (key "GRU").mpr (Or.inr (by decide))
  · have h1 : ¬ (pyLower "transformer" = "lstm") := by decide
    have h2 : ¬ (pyLower "transformer" = "gru") := by decide
    simp [BaseRNN.make, h1, h2]

/-- C10 (implicit): the stored `rnn_droprate` equals the supplied
argument when `n_layers > 1` and is silently overridden to `0.0`
whenever `n_layers ≤ 1`, whatever the caller supplied. -/
theorem baseRNN_droprate_override (vs ml ins hs : ℕ) (ed rd : ℚ) (nl : ℕ)
    (cell : String) (r : BaseRNN)
    (hmk : BaseRNN.make vs ml ins hs ed rd nl cell = .ok r) :
    r.rnn_droprate = if nl > 1 then rd else 0 := by
  by_cases h1 : pyLower cell = "lstm"
  · simp only [BaseRNN.make, eq_true h1, if_true, Except.ok.injEq] at hmk
    subst hmk
    rfl
  · by_cases h2 : pyLower cell = "gru"
    · simp only [BaseRNN.make, eq_false h1, eq_true h2, if_true, if_false,
        Except.ok.injEq] at hmk
      subst hmk
      rfl
    · simp [BaseRNN.make, h1, h2] at hmk

/-- Witness for C10: constructing with `n_layers = 1` and supplied rate
`1/2` stores rate `0`. -/
theorem baseRNN_droprate_override_witness :
    ({ vocab_size := 7, max_len := 5, input_size := 3, hidden_size := 4,
       n_layers := 1, embed_droprate := 0, rnn_droprate := 0,
       rnn_cell := .lstm } : BaseRNN).rnn_droprate =
      if 1 > 1 then (1/2 : ℚ) else 0 :=
  baseRNN_droprate_override 7 5 3 4 0 (1/2) 1 "lstm" _ (by rfl)

/-! ## `find_val` lemmas -/

/-- Once at least one occurrence has been accumulated before a suffix,
the marker is `0` throughout that suffix: the shifted cumulative sums
can never equal `1` at a match. -/
theorem marker_shift (ms : List ℕ) (k : ℕ) :
    List.zipWith (fun c m => if c = 1 ∧ m = 1 then (1 : ℕ) else 0)
      ((cumsum ms).map (fun c => k + 1 + c)) ms = List.replicate ms.length 0 := by
  induction ms generalizing k with
  | nil => rfl
  | cons m ms ih =>
      have hhead : ¬ (k + 1 + m = 1 ∧ m = 1) := by omega
      have hcomp : (fun c => k + 1 + (m + c)) = fun c => (k + m) + 1 + c := by
        funext c
        omega
      simp only [cumsum, List.map_cons, List.map_map, List.zipWith_cons_cons,
        Function.comp_def, hcomp, if_neg hhead, List.length_cons,
        List.replicate_succ, List.cons.injEq, true_and]
      exact ih (k + m)

/-- The marker tensor computed by `find_val` is `1` exactly at the
first occurrence of `val` and `0` everywhere else. -/
theorem markerOf_eq_firstMarker (row : List ℤ) (val : ℤ) :
    markerOf row val = firstMarker row val := by
  induction row with
  | nil => rfl
  | cons x xs ih =>
      by_cases h : x = val
      · have hshift : (fun c => (1 : ℕ) + c) = fun c => 0 + 1 + c := by
          funext c
          omega
        simp only [markerOf, valMatch, firstMarker, List.map_cons, if_pos h,
          cumsum, List.zipWith_cons_cons, List.cons.injEq]
        refine ⟨by simp, ?_⟩
        rw [hshift]
        have hms := marker_shift (valMatch xs val) 0
        simp only [valMatch] at hms
        rw [hms]
        simp
      · have hzero : (fun c => (0 : ℕ) + c) = fun c => c := by
          funext c
          omega
        simp only [markerOf, valMatch, firstMarker, List.map_cons, if_neg h,
          cumsum, List.zipWith_cons_cons, List.cons.injEq, hzero, List.map_id']
        refine ⟨by simp, ?_⟩
        simpa [markerOf, valMatch] using ih

/-- Folding `max` over a row of zeros gives `0`. -/
theorem foldr_max_replicate (n : ℕ) :
    (List.replicate n (0 : ℕ)).foldr max 0 = 0 := by
  induction n with
  | zero => rfl
  | succ n ih => simp [List.replicate_succ, ih]

/-- `torch.max` of the first-occurrence marker row: the found byte is
`1` exactly when `val` occurs, and the returned index is the position
of the first occurrence (`0` when absent). -/
theorem torchMax_firstMarker (row : List ℤ) (val : ℤ) :
    torchMax (firstMarker row val) =
      (if val ∈ row then 1 else 0,
       if val ∈ row then row.findIdx (fun y => y == val) else 0) := by
  induction row with
  | nil => simp [firstMarker, torchMax]
  | cons x xs ih =>
      by_cases h : x = val
      · subst h
        simp [firstMarker, torchMax, foldr_max_replicate, List.findIdx_cons]
      · have hbeq : (x == val) = false := by
          simp [h]
        have hfold := congrArg Prod.fst ih
        have hidx := congrArg Prod.snd ih
        simp only [torchMax] at hfold hidx
        simp only [hfold] at hidx
        have hmem : (val ∈ x :: xs) ↔ (val ∈ xs) := by
          simp only [List.mem_cons, or_iff_right_iff_imp]
          intro hv
          exact absurd hv.symm h
        by_cases hm : val ∈ xs
        · simp only [hm, if_true] at hidx
          simp [firstMarker, if_neg h, torchMax, hfold, hm, hmem,
            List.findIdx_cons, hbeq, hidx, Nat.zero_max]
        · simp only [hm, if_false] at hidx
          simp [firstMarker, if_neg h, torchMax, hfold, hm, hmem,
            List.findIdx_cons, hbeq, Nat.zero_max]

/-- One row of `find_val`: found byte `1` exactly when `val` occurs,
index the first occurrence position (`0` when absent). -/
theorem find_val_row_spec (row : List ℤ) (val : ℤ) :
    find_val_row row val =
      (if val ∈ row then 1 else 0,
       if val ∈ row then row.findIdx (fun y => y == val) else 0) := by
  have h0 : find_val_row row val = torchMax (markerOf row val) := rfl
  rw [h0, markerOf_eq_firstMarker, torchMax_firstMarker]

/-- C5: `find_val` returns per row a found flag that is `1` (True) if
and only if `val` occurs in that row, and an index equal to the
position of the first occurrence of `val` in that row whenever it
occurs (the index degenerates to `0` when `val` is absent, which the
contract leaves unspecified). -/
theorem find_val_first_occurrence (inputs : List (List ℤ)) (val : ℤ) :
    (find_val inputs val).1 = inputs.map (fun row => if val ∈ row then 1 else 0) ∧
    (find_val inputs val).2 =
      inputs.map (fun row =>
        if val ∈ row then row.findIdx (fun y => y == val) else 0) := by
  constructor
  · simp [find_val, find_val_row_spec]
  · simp [find_val, find_val_row_spec]

end DSSVAE
